import Mathlib

/-!
# Motor control node: CAN frame codec, actuator flags and the periodic tick

A shallow embedding of `src/motor_control/src/motor_control_node.cpp`.

* `S32`/`int` values are integers (`Int`); `U32` and byte values are naturals.
  Two's-complement wrap-around is written out with `% 2 ^ 32`.
* `float` and `double` values are the rationals they denote (finite values only).
  Every floating-point operation of the source is the exact operation followed by
  rounding to the format of its result (`toFloat`, `toDouble`: round to nearest,
  ties to even, with gradual underflow; overflow to infinity is not modelled).
* The global variables of the node are the fields of `State`; a callback takes the
  state and its message and returns the new state together with what it emitted
  (published frames, log lines).
-/

namespace MotorControl

/-! ## CAN frames -/

/-- The fields of `can_msgs::msg::Frame` that the node reads or writes. `data` is the
`std::array<uint8_t, 8>` payload, one natural number per byte. -/
structure Frame where
  id : Nat
  is_rtr : Bool
  is_error : Bool
  is_extended : Bool
  dlc : Nat
  data : List Nat
deriving DecidableEq

/-- The expression `x & 0xFF` on an `int`, stored into a `uint8_t`. -/
def byteOf (x : Int) : Nat := (Int.land x 0xFF).toNat

/-- The method `send_can(U32 id, S32 data)`: the frame it publishes. The message is
value-initialised, so the payload bytes 4 to 7 stay zero. -/
def send_can (id : Nat) (data : Int) : Frame :=
  { is_rtr := false
    is_error := false
    is_extended := true
    id := id
    dlc := 4
    data := [byteOf (data >>> (24 : Nat)), byteOf (data >>> (16 : Nat)),
             byteOf (data >>> (8 : Nat)), byteOf data,
             0, 0, 0, 0] }

/-! ## Machine integers -/

/-- The result of an `int` operation whose mathematical value is `x`: reduced into
`[-2^31, 2^31)` modulo `2^32`. -/
def wrapS32 (x : Int) : Int := (x + 2 ^ 31) % 2 ^ 32 - 2 ^ 31

/-- Conversion of an `int` to `U32`. -/
def toU32 (x : Int) : Nat := (x % 2 ^ 32).toNat

/-- The expression `b << k` for an `unsigned char` `b` promoted to `int`. Where the
product reaches bit 31 (`data[0] << 24` with `data[0] ≥ 128`) the result is the
two's-complement one, as C++20 defines it and earlier compilers produce it. -/
def shl (b : Nat) (k : Nat) : Int := wrapS32 ((b : Int) * 2 ^ k)

/-- The `int` addition `x + y`. -/
def addS32 (x y : Int) : Int := wrapS32 (x + y)

/-- Reading a `U32` bit pattern as a two's-complement `S32`. -/
def asS32 (u : Nat) : Int := if u < 2 ^ 31 then (u : Int) else (u : Int) - 2 ^ 32

/-! ## Status frames -/

/-- The values `CAN_callback` computes from a status frame. -/
structure Status where
  id : Nat
  eRPM : Nat
  avgMotorCurrent : Nat
  dutyCycleNow : Nat
deriving DecidableEq

/-- The decoding part of `CAN_callback` (the locals `id`, `eRPM`, `avgMotorCurrent` and
`dutyCycleNow`). -/
def decode (can_msg : Frame) : Status :=
  let data : Nat → Nat := fun i => can_msg.data.getD i 0
  { id := can_msg.id &&& 0xFF
    eRPM := toU32 (addS32 (addS32 (addS32 (shl (data 0) 24) (shl (data 1) 16)) (shl (data 2) 8))
              (data 3))
    avgMotorCurrent := toU32 (Int.tdiv (addS32 (shl (data 4) 8) (data 5)) 10)
    dutyCycleNow := toU32 (Int.tdiv (addS32 (shl (data 6) 8) (data 7)) 1000) }

/-! ## Floating point -/

/-- The integer nearest to `q`, the even one of the two when `q` lies halfway. -/
def roundHalfEven (q : ℚ) : Int :=
  if q - ⌊q⌋ < 1 / 2 then ⌊q⌋
  else if 1 / 2 < q - ⌊q⌋ then ⌊q⌋ + 1
  else if ⌊q⌋ % 2 = 0 then ⌊q⌋
  else ⌊q⌋ + 1

/-- The exponent of the last significand bit of `q` in a binary format with `p` significand
bits whose least subnormal is `2 ^ emin`. -/
def ulpExp (p : Nat) (emin : Int) (q : ℚ) : Int := max emin (Int.log 2 |q| + 1 - p)

/-- Rounding to the nearest value of the binary format `(p, emin)`, ties to even. -/
def fpRound (p : Nat) (emin : Int) (q : ℚ) : ℚ :=
  roundHalfEven (q / 2 ^ ulpExp p emin q) * 2 ^ ulpExp p emin q

/-- Rounding to `float` (IEEE binary32: 24 significand bits, least subnormal `2^-149`). -/
def toFloat (q : ℚ) : ℚ := fpRound 24 (-149) q

/-- Rounding to `double` (IEEE binary64: 53 significand bits, least subnormal `2^-1074`). -/
def toDouble (q : ℚ) : ℚ := fpRound 53 (-1074) q

/-- The values of the binary format `(p, emin)`: `M * 2 ^ E` with `|M| < 2 ^ p` and
`emin ≤ E`. -/
def Representable (p : Nat) (emin : Int) (q : ℚ) : Prop :=
  ∃ M E : Int, q = M * 2 ^ E ∧ |M| < 2 ^ p ∧ emin ≤ E

/-- The `float` values. -/
def IsFloat (q : ℚ) : Prop := Representable 24 (-149) q

/-- Truncation toward zero. -/
def truncate (q : ℚ) : Int := if 0 ≤ q then ⌊q⌋ else ⌈q⌉

/-- Conversion of a floating-point value to `S32` (`S32 data = <double>;`): truncation
toward zero. For a value whose truncation is not an `S32` the C++ standard defines no
result; here it is `INT_MIN`, the result of the x86-64 conversion instruction. -/
def toS32 (q : ℚ) : Int :=
  if -2 ^ 31 ≤ truncate q ∧ truncate q < 2 ^ 31 then truncate q else -2 ^ 31

/-- The conversion `dutyCycleToWire` in the words of the specification:
`round(percent * 100000)`, the nearest integer. -/
def spec_dutyCycleToWire (percent : ℚ) : Int := round (percent * 100000)

/-! ## Node state and configuration -/

/-- The global variables of the node. -/
structure State where
  linear_drive_power_cmd : ℚ
  angular_drive_power_cmd : ℚ
  digging : Bool
  offloading : Bool
  count : Int
deriving DecidableEq

/-- The initial values of the global variables. -/
def State.init : State :=
  { linear_drive_power_cmd := 0
    angular_drive_power_cmd := 0
    digging := false
    offloading := false
    count := 0 }

def FRONT_LEFT_DRIVE : Nat := 0x001
def BACK_LEFT_DRIVE : Nat := 0x002
def FRONT_RIGHT_DRIVE : Nat := 0x003
def BACK_RIGHT_DRIVE : Nat := 0x004
def DIGGER_DEPTH_MOTOR : Nat := 0x005
def DIGGER_ROTATION_MOTOR : Nat := 0x006
def DIGGER_DRUM_BELT_MOTOR : Nat := 0x007
def CONVEYOR_BELT_MOTOR : Nat := 0x008
def OFFLOAD_BELT_MOTOR : Nat := 0x009

/-- The `float` initialised with `0.5`, which is a `float` value. -/
def DIGGER_ROTATION_POWER : ℚ := 1 / 2
def DIGGER_DEPTH_POWER : ℚ := 1 / 2
def DRUM_BELT_POWER : ℚ := 1 / 2
def CONVEYOR_BELT_POWER : ℚ := 1 / 2
def OFFLOAD_BELT_POWER : ℚ := 1 / 2

/-! ## Callbacks -/

/-- The method `vesc_set_duty_cycle(U32 id, float percentPower)`: the product
`percentPower * 100000.0` is a `double`, converted to `S32` and handed to `send_can`. -/
def vesc_set_duty_cycle (id : Nat) (percentPower : ℚ) : Frame :=
  send_can id (toS32 (toDouble (percentPower * 100000)))

/-- The method `drive_power_callback`: the two `double` fields of the message are stored
into the `float` globals. -/
def drive_power_callback (s : State) (linear_x angular_z : ℚ) : State :=
  { s with
    linear_drive_power_cmd := toFloat linear_x
    angular_drive_power_cmd := toFloat angular_z }

/-- A line written by one `RCLCPP_INFO` call of `CAN_callback`: the line naming the CAN
id the frame came from, or the line with the three decoded values. -/
inductive LogLine where
  | received (id : Nat)
  | values (eRPM avgMotorCurrent dutyCycleNow : Nat)
deriving DecidableEq

/-- The method `CAN_callback`: the new state and the log lines it writes, in order
(`count++` is the `int` addition). When the counter reaches 60 the two `RCLCPP_INFO`
calls write one line each. -/
def CAN_callback (s : State) (can_msg : Frame) : State × List LogLine :=
  let status := decode can_msg
  let count := addS32 s.count 1
  if count ≥ 60 then
    ({ s with count := 0 },
     [ LogLine.received status.id,
       LogLine.values status.eRPM status.avgMotorCurrent status.dutyCycleNow ])
  else ({ s with count := count }, [])

/-- Whether `tok` occurs in the text at the current position or a later one. -/
def findFrom (tok : List Char) : List Char → Bool
  | [] => tok.isPrefixOf []
  | c :: cs => tok.isPrefixOf (c :: cs) || findFrom tok cs

/-- The test `text.find(tok) != std::string::npos`. -/
def found (text tok : String) : Bool := findFrom tok.data text.data

/-- The method `actuators_callback`. -/
def actuators_callback (s : State) (msg : String) : State :=
  let s := if found msg "STOP_ALL_ACTUATORS" then
    { s with digging := false, offloading := false } else s
  let s := if found msg "DIGGER_ON" then { s with digging := true } else s
  let s := if found msg "OFFLOADER_ON" then { s with offloading := true } else s
  let s := if found msg "DIGGER_OFF" then { s with digging := false } else s
  let s := if found msg "OFFLOADER_OFF" then { s with offloading := false } else s
  let s := if found msg "EXTEND_DIGGER" then s else s
  let s := if found msg "RETRACT_DIGGER" then s else s
  let s := if found msg "BEGIN_DIG_PROCEDURE" then s else s
  s

/-- The method `timer_callback`: the state it leaves and the frames it publishes, in
order. The sum and the difference of the two `float` globals are `float` operations; the
product with `-1.0` and the conditional with `0.0` are `double` values, converted to the
`float` parameter. -/
def timer_callback (s : State) : State × List Frame :=
  (s,
   [ vesc_set_duty_cycle FRONT_LEFT_DRIVE
       (toFloat (s.linear_drive_power_cmd - s.angular_drive_power_cmd)),
     vesc_set_duty_cycle BACK_LEFT_DRIVE
       (toFloat (s.linear_drive_power_cmd - s.angular_drive_power_cmd)),
     vesc_set_duty_cycle FRONT_RIGHT_DRIVE
       (toFloat (toDouble
         (toFloat (s.linear_drive_power_cmd + s.angular_drive_power_cmd) * -1))),
     vesc_set_duty_cycle BACK_RIGHT_DRIVE
       (toFloat (toDouble
         (toFloat (s.linear_drive_power_cmd + s.angular_drive_power_cmd) * -1))),
     vesc_set_duty_cycle DIGGER_ROTATION_MOTOR
       (toFloat (if s.digging then DIGGER_ROTATION_POWER else 0)),
     vesc_set_duty_cycle DIGGER_DRUM_BELT_MOTOR
       (toFloat (if s.digging then DRUM_BELT_POWER else 0)),
     vesc_set_duty_cycle CONVEYOR_BELT_MOTOR
       (toFloat (if s.digging then CONVEYOR_BELT_POWER else 0)),
     vesc_set_duty_cycle OFFLOAD_BELT_MOTOR
       (toFloat (if s.offloading then CONVEYOR_BELT_POWER else 0)) ])

/-- A run of `CAN_callback` over the status frames received, in order: the final state
and, for each frame, the log lines written at that frame. -/
def CAN_run (s : State) : List Frame → State × List (List LogLine)
  | [] => (s, [])
  | m :: ms =>
    let r := CAN_callback s m
    let rest := CAN_run r.1 ms
    (rest.1, r.2 :: rest.2)

/-- The two log lines `CAN_callback` writes for a status frame when it logs. -/
def logLines (can_msg : Frame) : List LogLine :=
  [ LogLine.received (decode can_msg).id,
    LogLine.values (decode can_msg).eRPM (decode can_msg).avgMotorCurrent
      (decode can_msg).dutyCycleNow ]

/-- The arguments `(id, percentPower)` of the eight calls of `vesc_set_duty_cycle` in
`timer_callback`, in order, each converted to the `float` parameter. -/
def timer_callback_commands (s : State) : List (Nat × ℚ) :=
  [ (FRONT_LEFT_DRIVE, toFloat (s.linear_drive_power_cmd - s.angular_drive_power_cmd)),
    (BACK_LEFT_DRIVE, toFloat (s.linear_drive_power_cmd - s.angular_drive_power_cmd)),
    (FRONT_RIGHT_DRIVE,
      toFloat (toDouble (toFloat (s.linear_drive_power_cmd + s.angular_drive_power_cmd) * -1))),
    (BACK_RIGHT_DRIVE,
      toFloat (toDouble (toFloat (s.linear_drive_power_cmd + s.angular_drive_power_cmd) * -1))),
    (DIGGER_ROTATION_MOTOR, toFloat (if s.digging then DIGGER_ROTATION_POWER else 0)),
    (DIGGER_DRUM_BELT_MOTOR, toFloat (if s.digging then DRUM_BELT_POWER else 0)),
    (CONVEYOR_BELT_MOTOR, toFloat (if s.digging then CONVEYOR_BELT_POWER else 0)),
    (OFFLOAD_BELT_MOTOR, toFloat (if s.offloading then CONVEYOR_BELT_POWER else 0)) ]

/-! ## Bytes -/

theorem land_0xFF (x : Int) : Int.land x 255 = x % 256 := by
  cases x with
  | ofNat n =>
    show ((n &&& 255 : Nat) : Int) = _
    have := Nat.and_pow_two_sub_one_eq_mod n 8
    norm_num at this
    rw [this]; rfl
  | negSucc m =>
    show ((Nat.ldiff 255 m : Nat) : Int) = _
    have h : Nat.ldiff 255 m = 255 - m % 256 := by
      apply Nat.eq_of_testBit_eq
      intro i
      rw [Nat.testBit_ldiff]
      have h2 : m % 256 < 2 ^ 8 := by omega
      have := Nat.testBit_two_pow_sub_succ h2 i
      have e : 2 ^ 8 - (m % 256 + 1) = 255 - m % 256 := by omega
      rw [e] at this
      rw [this]
      have h3 : (255 : Nat) = 2 ^ 8 - 1 := by norm_num
      rw [h3, Nat.testBit_two_pow_sub_one]
      have : (m % 256).testBit i = (decide (i < 8) && m.testBit i) := by
        have := Nat.testBit_mod_two_pow m 8 i
        simpa using this
      rw [this]
      cases decide (i < 8) <;> simp
    rw [h, Int.negSucc_eq]
    omega

theorem byteOf_eq (x : Int) : byteOf x = (x % 256).toNat := by
  unfold byteOf
  rw [show (0xFF : Int) = 255 from rfl, land_0xFF]

theorem byteOf_shift (x : Int) (k : Nat) : byteOf (x >>> k) = (x / 2 ^ k % 256).toNat := by
  rw [byteOf_eq, Int.shiftRight_eq_div_pow]
  norm_num

/-! ## The control frame -/

theorem byte3 (v : Int) : (v / 2 ^ 24 % 256).toNat = toU32 v / 2 ^ 24 % 256 := by
  unfold toU32; norm_num; omega

theorem byte2 (v : Int) : (v / 2 ^ 16 % 256).toNat = toU32 v / 2 ^ 16 % 256 := by
  unfold toU32; norm_num; omega

theorem byte1 (v : Int) : (v / 2 ^ 8 % 256).toNat = toU32 v / 2 ^ 8 % 256 := by
  unfold toU32; norm_num; omega

theorem byte0 (v : Int) : (v % 256).toNat = toU32 v % 256 := by
  unfold toU32; norm_num; omega

theorem send_can_data (id : Nat) (v : Int) :
    (send_can id v).data =
      [toU32 v / 2 ^ 24 % 256, toU32 v / 2 ^ 16 % 256, toU32 v / 2 ^ 8 % 256, toU32 v % 256,
       0, 0, 0, 0] := by
  unfold send_can
  rw [byteOf_shift, byteOf_shift, byteOf_shift, byteOf_eq, byte3, byte2, byte1, byte0]

/-- C1: for every CAN id and every value, `send_can` publishes a frame with that id,
extended, neither remote-transmission-request nor error, `dlc = 4`, whose first four data
bytes are the big-endian bytes of the 32-bit two's-complement pattern of the value
(`toU32 value` is that pattern); `-80000` gives `FF FE C7 80`. -/
theorem send_can_frame (id : Nat) (value : Int) :
    (send_can id value).id = id ∧
    (send_can id value).is_extended = true ∧
    (send_can id value).is_rtr = false ∧
    (send_can id value).is_error = false ∧
    (send_can id value).dlc = 4 ∧
    (send_can id value).data.take 4 =
      [toU32 value / 2 ^ 24 % 256, toU32 value / 2 ^ 16 % 256, toU32 value / 2 ^ 8 % 256,
       toU32 value % 256] ∧
    (send_can id (-80000)).data.take 4 = [0xFF, 0xFE, 0xC7, 0x80] := by
  refine ⟨rfl, rfl, rfl, rfl, rfl, ?_, ?_⟩
  · rw [send_can_data]; rfl
  · rw [send_can_data]; decide

/-! ## The status frame -/

theorem wrapS32_modEq (u : Int) : wrapS32 u ≡ u [ZMOD 2 ^ 32] := by
  unfold wrapS32 Int.ModEq
  norm_num
  omega

theorem addS32_modEq {a b x y : Int} (ha : a ≡ x [ZMOD 2 ^ 32]) (hb : b ≡ y [ZMOD 2 ^ 32]) :
    addS32 a b ≡ x + y [ZMOD 2 ^ 32] :=
  (wrapS32_modEq (a + b)).trans (ha.add hb)

theorem toU32_of_modEq {a : Int} {n : Nat} (h : a ≡ n [ZMOD 2 ^ 32]) (hn : n < 2 ^ 32) :
    toU32 a = n := by
  unfold toU32
  rw [h, Int.emod_eq_of_lt (by positivity) (by exact_mod_cast hn)]
  simp

theorem wrapS32_of_range (x : Int) (h0 : -2 ^ 31 ≤ x) (h1 : x < 2 ^ 31) : wrapS32 x = x := by
  unfold wrapS32
  norm_num at h0 h1 ⊢
  omega

theorem eRPM_eq (d0 d1 d2 d3 : Nat) (h0 : d0 < 256) (h1 : d1 < 256) (h2 : d2 < 256)
    (h3 : d3 < 256) :
    toU32 (addS32 (addS32 (addS32 (shl d0 24) (shl d1 16)) (shl d2 8)) d3) =
      d0 * 2 ^ 24 + d1 * 2 ^ 16 + d2 * 2 ^ 8 + d3 := by
  have h := addS32_modEq (addS32_modEq (addS32_modEq (wrapS32_modEq ((d0 : Int) * 2 ^ 24))
    (wrapS32_modEq ((d1 : Int) * 2 ^ 16))) (wrapS32_modEq ((d2 : Int) * 2 ^ 8)))
    (Int.ModEq.refl (d3 : Int))
  apply toU32_of_modEq
  · push_cast
    exact h
  · omega

theorem field16_eq (hi lo : Nat) (k : Nat) (h0 : hi < 256) (h1 : lo < 256) :
    toU32 (Int.tdiv (addS32 (shl hi 8) lo) k) = (hi * 256 + lo) / k := by
  have h : addS32 (shl hi 8) lo = ((hi * 256 + lo : Nat) : Int) := by
    unfold addS32 shl
    rw [wrapS32_of_range ((hi : Int) * 2 ^ 8) (by norm_num; omega) (by norm_num; omega)]
    rw [wrapS32_of_range _ (by norm_num; omega) (by norm_num; omega)]
    norm_num
  rw [h, Int.tdiv_eq_ediv (Int.ofNat_nonneg _) (Int.ofNat_nonneg _), ← Int.ofNat_ediv]
  apply toU32_of_modEq (Int.ModEq.refl _)
  calc (hi * 256 + lo) / k ≤ hi * 256 + lo := Nat.div_le_self _ _
    _ < 2 ^ 32 := by omega

theorem decode_bytes (can_msg : Frame) (d0 d1 d2 d3 d4 d5 d6 d7 : Nat)
    (hdata : can_msg.data = [d0, d1, d2, d3, d4, d5, d6, d7])
    (h0 : d0 < 256) (h1 : d1 < 256) (h2 : d2 < 256) (h3 : d3 < 256)
    (h4 : d4 < 256) (h5 : d5 < 256) (h6 : d6 < 256) (h7 : d7 < 256) :
    decode can_msg =
      { id := can_msg.id % 256
        eRPM := d0 * 2 ^ 24 + d1 * 2 ^ 16 + d2 * 2 ^ 8 + d3
        avgMotorCurrent := (d4 * 256 + d5) / 10
        dutyCycleNow := (d6 * 256 + d7) / 1000 } := by
  have hid : can_msg.id &&& 0xFF = can_msg.id % 256 :=
    Nat.and_pow_two_sub_one_eq_mod can_msg.id 8
  unfold decode
  simp only [hdata, hid, List.getD_cons_zero, List.getD_cons_succ]
  rw [eRPM_eq d0 d1 d2 d3 h0 h1 h2 h3]
  have a := field16_eq d4 d5 10 h4 h5
  have b := field16_eq d6 d7 1000 h6 h7
  simp only [Nat.cast_ofNat] at a b
  rw [a, b]

/-- C2: for every status frame with data bytes `d0 … d7` and identifier `ident`, the
decoding in `CAN_callback` gives `id = ident mod 256`, `eRPM` the big-endian unsigned
32-bit value of bytes 0 to 3, `avgMotorCurrent = ⌊(d4·256 + d5) / 10⌋` and
`dutyCycleNow = ⌊(d6·256 + d7) / 1000⌋`. -/
theorem decode_status (can_msg : Frame) (d0 d1 d2 d3 d4 d5 d6 d7 : Nat)
    (hdata : can_msg.data = [d0, d1, d2, d3, d4, d5, d6, d7])
    (h0 : d0 < 256) (h1 : d1 < 256) (h2 : d2 < 256) (h3 : d3 < 256)
    (h4 : d4 < 256) (h5 : d5 < 256) (h6 : d6 < 256) (h7 : d7 < 256) :
    decode can_msg =
      { id := can_msg.id % 256
        eRPM := d0 * 2 ^ 24 + d1 * 2 ^ 16 + d2 * 2 ^ 8 + d3
        avgMotorCurrent := (d4 * 256 + d5) / 10
        dutyCycleNow := (d6 * 256 + d7) / 1000 } ∧
    (decode can_msg).eRPM < 2 ^ 32 := by
  have hd := decode_bytes can_msg d0 d1 d2 d3 d4 d5 d6 d7 hdata h0 h1 h2 h3 h4 h5 h6 h7
  refine ⟨hd, ?_⟩
  rw [hd]
  show d0 * 2 ^ 24 + d1 * 2 ^ 16 + d2 * 2 ^ 8 + d3 < 2 ^ 32
  omega

/-- Witness of `decode_status`: a frame from the motor with id `0x906`. -/
theorem decode_status_witness :
    decode { id := 0x906, is_rtr := false, is_error := false, is_extended := true, dlc := 8,
             data := [0xFF, 1, 2, 3, 0x12, 0x34, 0xAB, 0xCD] } =
      { id := 6, eRPM := 0xFF010203, avgMotorCurrent := 466, dutyCycleNow := 43 } :=
  (decode_status
    { id := 0x906, is_rtr := false, is_error := false, is_extended := true, dlc := 8,
      data := [0xFF, 1, 2, 3, 0x12, 0x34, 0xAB, 0xCD] }
    0xFF 1 2 3 0x12 0x34 0xAB 0xCD rfl (by decide) (by decide) (by decide) (by decide)
    (by decide) (by decide) (by decide) (by decide)).1

/-! ## Round trip of the control payload -/

theorem toU32_lt (x : Int) : toU32 x < 2 ^ 32 := by
  unfold toU32; omega

theorem toU32_bytes (x : Int) :
    toU32 x / 2 ^ 24 % 256 * 2 ^ 24 + toU32 x / 2 ^ 16 % 256 * 2 ^ 16 +
      toU32 x / 2 ^ 8 % 256 * 2 ^ 8 + toU32 x % 256 = toU32 x := by
  have := toU32_lt x
  omega

theorem decode_send_can (id : Nat) (x : Int) : (decode (send_can id x)).eRPM = toU32 x := by
  rw [decode_bytes (send_can id x) _ _ _ _ 0 0 0 0 (send_can_data id x)
    (Nat.mod_lt _ (by decide)) (Nat.mod_lt _ (by decide)) (Nat.mod_lt _ (by decide))
    (Nat.mod_lt _ (by decide)) (by decide) (by decide) (by decide) (by decide)]
  exact toU32_bytes x

theorem asS32_toU32 (x : Int) (h0 : -2 ^ 31 ≤ x) (h1 : x < 2 ^ 31) : asS32 (toU32 x) = x := by
  unfold asS32 toU32
  norm_num at h0 h1 ⊢
  split <;> omega

/-- C9: for every signed 32-bit `x`, the four data bytes written by `send_can`, put
together as `CAN_callback` puts bytes 0 to 3 together and read as a two's-complement
signed 32-bit integer, give `x` back; hence `send_can` is injective in its value. -/
theorem send_can_roundtrip (id : Nat) (x y : Int)
    (hx0 : -2 ^ 31 ≤ x) (hx1 : x < 2 ^ 31) (hy0 : -2 ^ 31 ≤ y) (hy1 : y < 2 ^ 31) :
    asS32 (decode (send_can id x)).eRPM = x ∧
    asS32 ((send_can id x).data.getD 0 0 * 2 ^ 24 + (send_can id x).data.getD 1 0 * 2 ^ 16 +
        (send_can id x).data.getD 2 0 * 2 ^ 8 + (send_can id x).data.getD 3 0) = x ∧
    (send_can id x = send_can id y → x = y) := by
  have hx := asS32_toU32 x hx0 hx1
  have hy := asS32_toU32 y hy0 hy1
  refine ⟨by rw [decode_send_can, hx], ?_, ?_⟩
  · rw [send_can_data]
    simp only [List.getD_cons_zero, List.getD_cons_succ]
    rw [toU32_bytes, hx]
  · intro h
    have h2 : (decode (send_can id x)).eRPM = (decode (send_can id y)).eRPM := by rw [h]
    rw [decode_send_can, decode_send_can] at h2
    rw [← hx, ← hy, h2]

/-- Witness of `send_can_roundtrip` at `x = -80000`, `y = 5`. -/
theorem send_can_roundtrip_witness :
    asS32 (decode (send_can 6 (-80000))).eRPM = -80000 ∧
    (send_can 6 (-80000) = send_can 6 5 → (-80000 : Int) = 5) :=
  have h := send_can_roundtrip 6 (-80000) 5 (by decide) (by decide) (by decide) (by decide)
  ⟨h.1, h.2.2⟩

/-! ## Actuator commands -/

theorem findFrom_iff_infix (tok text : List Char) : findFrom tok text = true ↔ tok <:+: text := by
  induction text with
  | nil =>
    rw [findFrom, List.isPrefixOf_iff_prefix, List.prefix_nil, List.infix_nil]
  | cons c cs ih =>
    rw [findFrom, Bool.or_eq_true, List.isPrefixOf_iff_prefix, ih, List.infix_cons_iff]

theorem found_iff (text tok : String) : found text tok = true ↔ tok.data <:+: text.data :=
  findFrom_iff_infix tok.data text.data

theorem actuators_callback_digging (s : State) (msg : String) :
    (actuators_callback s msg).digging =
      if found msg "DIGGER_OFF" then false
      else if found msg "DIGGER_ON" then true
      else if found msg "STOP_ALL_ACTUATORS" then false
      else s.digging := by
  unfold actuators_callback
  cases found msg "STOP_ALL_ACTUATORS" <;> cases found msg "DIGGER_ON" <;>
    cases found msg "OFFLOADER_ON" <;> cases found msg "DIGGER_OFF" <;>
    cases found msg "OFFLOADER_OFF" <;> simp

theorem actuators_callback_offloading (s : State) (msg : String) :
    (actuators_callback s msg).offloading =
      if found msg "OFFLOADER_OFF" then false
      else if found msg "OFFLOADER_ON" then true
      else if found msg "STOP_ALL_ACTUATORS" then false
      else s.offloading := by
  unfold actuators_callback
  cases found msg "STOP_ALL_ACTUATORS" <;> cases found msg "DIGGER_ON" <;>
    cases found msg "OFFLOADER_ON" <;> cases found msg "DIGGER_OFF" <;>
    cases found msg "OFFLOADER_OFF" <;> simp

/-- C6: for every prior state and every command string, `actuators_callback` leaves
`digging` false if the string contains `DIGGER_OFF`, else true if it contains `DIGGER_ON`,
else false if it contains `STOP_ALL_ACTUATORS`, else unchanged, and likewise `offloading`
with `OFFLOADER_OFF`, `OFFLOADER_ON`, `STOP_ALL_ACTUATORS`; containing means occurring as
a substring anywhere. So a stop together with `DIGGER_ON` and no `DIGGER_OFF` ends with
`digging = true`, and an ON together with its OFF ends with that flag false. -/
theorem actuators_callback_order (s : State) (msg : String) :
    ((actuators_callback s msg).digging =
      if "DIGGER_OFF".data <:+: msg.data then false
      else if "DIGGER_ON".data <:+: msg.data then true
      else if "STOP_ALL_ACTUATORS".data <:+: msg.data then false
      else s.digging) ∧
    ((actuators_callback s msg).offloading =
      if "OFFLOADER_OFF".data <:+: msg.data then false
      else if "OFFLOADER_ON".data <:+: msg.data then true
      else if "STOP_ALL_ACTUATORS".data <:+: msg.data then false
      else s.offloading) ∧
    ("STOP_ALL_ACTUATORS".data <:+: msg.data → "DIGGER_ON".data <:+: msg.data →
      ¬ "DIGGER_OFF".data <:+: msg.data → (actuators_callback s msg).digging = true) ∧
    ("DIGGER_ON".data <:+: msg.data → "DIGGER_OFF".data <:+: msg.data →
      (actuators_callback s msg).digging = false) ∧
    ("OFFLOADER_ON".data <:+: msg.data → "OFFLOADER_OFF".data <:+: msg.data →
      (actuators_callback s msg).offloading = false) := by
  have hd : (actuators_callback s msg).digging =
      if "DIGGER_OFF".data <:+: msg.data then false
      else if "DIGGER_ON".data <:+: msg.data then true
      else if "STOP_ALL_ACTUATORS".data <:+: msg.data then false
      else s.digging := by
    rw [actuators_callback_digging]; simp only [found_iff]
  have ho : (actuators_callback s msg).offloading =
      if "OFFLOADER_OFF".data <:+: msg.data then false
      else if "OFFLOADER_ON".data <:+: msg.data then true
      else if "STOP_ALL_ACTUATORS".data <:+: msg.data then false
      else s.offloading := by
    rw [actuators_callback_offloading]; simp only [found_iff]
  refine ⟨hd, ho, ?_, ?_, ?_⟩
  · intro _ h2 h3
    rw [hd, if_neg h3, if_pos h2]
  · intro _ h2
    rw [hd, if_pos h2]
  · intro _ h2
    rw [ho, if_pos h2]

/-- Witness of `actuators_callback_order`: a stop followed by `DIGGER_ON`, and an
`OFFLOADER_ON` followed by its OFF. -/
theorem actuators_callback_order_witness :
    (actuators_callback State.init "STOP_ALL_ACTUATORS DIGGER_ON").digging = true ∧
    (actuators_callback { State.init with offloading := true }
      "OFFLOADER_ON OFFLOADER_OFF").offloading = false :=
  ⟨(actuators_callback_order State.init "STOP_ALL_ACTUATORS DIGGER_ON").2.2.1
      (by decide) (by decide) (by decide),
   (actuators_callback_order { State.init with offloading := true }
      "OFFLOADER_ON OFFLOADER_OFF").2.2.2.2 (by decide) (by decide)⟩

theorem actuators_callback_of (s : State) (msg : String) (stop don oon doff ooff : Bool)
    (h1 : found msg "STOP_ALL_ACTUATORS" = stop) (h2 : found msg "DIGGER_ON" = don)
    (h3 : found msg "OFFLOADER_ON" = oon) (h4 : found msg "DIGGER_OFF" = doff)
    (h5 : found msg "OFFLOADER_OFF" = ooff) :
    actuators_callback s msg =
      { s with
        digging := if doff then false else if don then true else if stop then false
          else s.digging
        offloading := if ooff then false else if oon then true else if stop then false
          else s.offloading } := by
  unfold actuators_callback
  rw [h1, h2, h3, h4, h5]
  cases stop <;> cases don <;> cases oon <;> cases doff <;> cases ooff <;> simp

/-- C10: for every prior state, a command that is exactly one token has the effect of
the token table and no other: `STOP_ALL_ACTUATORS` clears both flags, `DIGGER_ON` and
`DIGGER_OFF` set and clear `digging` only, `OFFLOADER_ON` and `OFFLOADER_OFF` set and
clear `offloading` only, the rest of the state being unchanged; no token contains another.
So `DIGGER_ON` then `DIGGER_OFF` ends with `digging = false`, and `STOP_ALL_ACTUATORS`
then `DIGGER_ON` ends with `digging = true` and `offloading = false`. -/
theorem actuators_callback_single_token (s : State) :
    actuators_callback s "STOP_ALL_ACTUATORS" = { s with digging := false, offloading := false } ∧
    actuators_callback s "DIGGER_ON" = { s with digging := true } ∧
    actuators_callback s "DIGGER_OFF" = { s with digging := false } ∧
    actuators_callback s "OFFLOADER_ON" = { s with offloading := true } ∧
    actuators_callback s "OFFLOADER_OFF" = { s with offloading := false } ∧
    (∀ a ∈ ["STOP_ALL_ACTUATORS", "DIGGER_ON", "OFFLOADER_ON", "DIGGER_OFF", "OFFLOADER_OFF"],
      ∀ b ∈ ["STOP_ALL_ACTUATORS", "DIGGER_ON", "OFFLOADER_ON", "DIGGER_OFF", "OFFLOADER_OFF"],
        found a b = true → a = b) ∧
    (actuators_callback (actuators_callback s "DIGGER_ON") "DIGGER_OFF").digging = false ∧
    (actuators_callback (actuators_callback s "STOP_ALL_ACTUATORS") "DIGGER_ON").digging = true ∧
    (actuators_callback (actuators_callback s "STOP_ALL_ACTUATORS") "DIGGER_ON").offloading
      = false := by
  have e1 := fun t => actuators_callback_of t "STOP_ALL_ACTUATORS" true false false false false
    (by decide) (by decide) (by decide) (by decide) (by decide)
  have e2 := fun t => actuators_callback_of t "DIGGER_ON" false true false false false
    (by decide) (by decide) (by decide) (by decide) (by decide)
  have e3 := fun t => actuators_callback_of t "DIGGER_OFF" false false false true false
    (by decide) (by decide) (by decide) (by decide) (by decide)
  have e4 := fun t => actuators_callback_of t "OFFLOADER_ON" false false true false false
    (by decide) (by decide) (by decide) (by decide) (by decide)
  have e5 := fun t => actuators_callback_of t "OFFLOADER_OFF" false false false false true
    (by decide) (by decide) (by decide) (by decide) (by decide)
  refine ⟨e1 s, e2 s, e3 s, e4 s, e5 s, by decide, ?_, ?_, ?_⟩
  · rw [e3]; rfl
  · rw [e2]; rfl
  · rw [e2, e1]; rfl

/-! ## Rate limiting of the status log -/

theorem CAN_callback_step (s : State) (m : Frame) (c : Nat) (hc : s.count = c) (h : c < 60) :
    (CAN_callback s m).1.count = ((c + 1) % 60 : Nat) ∧
    (CAN_callback s m).2 = if (c + 1) % 60 = 0 then logLines m else [] := by
  have hw : addS32 s.count 1 = (c : Int) + 1 := by
    rw [hc]
    exact wrapS32_of_range _ (by norm_num; omega) (by norm_num; omega)
  unfold CAN_callback logLines
  simp only [hw]
  by_cases h59 : c = 59
  · subst h59
    simp
  · have h1 : ¬ ((c : Int) + 1 ≥ 60) := by omega
    have h2 : (c + 1) % 60 = c + 1 := Nat.mod_eq_of_lt (by omega)
    simp only [h1, if_false, h2]
    simp

theorem CAN_run_spec (ms : List Frame) :
    ∀ (s : State) (c : Nat), s.count = c → c < 60 →
      (CAN_run s ms).1.count = ((c + ms.length) % 60 : Nat) ∧
      ((CAN_run s ms).2.filter (fun l => !l.isEmpty)).length = (c + ms.length) / 60 ∧
      ((CAN_run s ms).2.map List.length).sum = 2 * ((c + ms.length) / 60) ∧
      ∀ k, (CAN_run s ms).2[k]? =
        ms[k]?.map (fun m => if (c + k + 1) % 60 = 0 then logLines m else []) := by
  induction ms with
  | nil =>
    intro s c hc h
    refine ⟨?_, ?_, ?_, ?_⟩
    · simp [CAN_run, hc, Nat.mod_eq_of_lt h]
    · simp [CAN_run]; omega
    · simp [CAN_run]; omega
    · intro k; simp [CAN_run]
  | cons m ms ih =>
    intro s c hc h
    obtain ⟨s1, s2⟩ := CAN_callback_step s m c hc h
    obtain ⟨i1, i2, i3, i4⟩ :=
      ih (CAN_callback s m).1 ((c + 1) % 60) s1 (Nat.mod_lt _ (by decide))
    refine ⟨?_, ?_, ?_, ?_⟩
    · show (CAN_run (CAN_callback s m).1 ms).1.count = _
      rw [i1]
      congr 1
      simp only [List.length_cons]
      omega
    · show (((CAN_callback s m).2 :: (CAN_run (CAN_callback s m).1 ms).2).filter
        (fun l => !l.isEmpty)).length = _
      rw [s2]
      simp only [List.length_cons]
      by_cases h0 : (c + 1) % 60 = 0
      · simp only [h0, if_true, logLines, List.filter_cons, List.isEmpty_cons, Bool.not_false,
          List.length_cons, i2]
        omega
      · simp only [h0, if_false, List.filter_cons, List.isEmpty_nil, Bool.not_true, i2]
        simp only [Bool.false_eq_true, if_false]
        omega
    · show (((CAN_callback s m).2 :: (CAN_run (CAN_callback s m).1 ms).2).map
        List.length).sum = _
      rw [s2]
      simp only [List.map_cons, List.sum_cons, i3, List.length_cons]
      by_cases h0 : (c + 1) % 60 = 0
      · simp only [h0, if_true, logLines, List.length_cons, List.length_nil]
        omega
      · simp only [h0, if_false, List.length_nil]
        omega
    · intro k
      show ((CAN_callback s m).2 :: (CAN_run (CAN_callback s m).1 ms).2)[k]? = _
      cases k with
      | zero => simp [s2]
      | succ k =>
        simp only [List.getElem?_cons_succ, i4]
        have e : ((c + 1) % 60 + k + 1) % 60 = (c + (k + 1) + 1) % 60 := by omega
        simp only [e]

/-- C8, as stated, fails: from the initial state, 60 status frames make `CAN_callback`
write two log lines (the line with the CAN id and the line with the values), not one. -/
theorem CAN_callback_two_lines :
    State.init.count = 0 ∧
    (List.replicate 60 (send_can DIGGER_ROTATION_MOTOR 0)).length = 60 ∧
    ((CAN_run State.init (List.replicate 60 (send_can DIGGER_ROTATION_MOTOR 0))).2.map
      List.length).sum = 2 ∧
    ((CAN_run State.init (List.replicate 60 (send_can DIGGER_ROTATION_MOTOR 0))).2.map
      List.length).sum ≠ 1 := by
  have h := (CAN_run_spec (List.replicate 60 (send_can DIGGER_ROTATION_MOTOR 0)) State.init 0
    rfl (by decide)).2.2.1
  have h2 : ((CAN_run State.init (List.replicate 60 (send_can DIGGER_ROTATION_MOTOR 0))).2.map
      List.length).sum = 2 := by
    rw [h]
    simp
  exact ⟨rfl, by simp, h2, by rw [h2]; decide⟩

/-- C8, amended: starting from a counter of 0, for every sequence of inbound status
frames, `CAN_callback` logs at the `k`-th frame received exactly when `k` is a positive
multiple of 60, and then writes two log lines (the CAN id of that frame, and its decoded
values); so `n` frames produce `⌊n / 60⌋` log emissions of two lines each, `2·⌊n / 60⌋`
lines in all, and after every callback the counter lies in `[0, 59]`. -/
theorem CAN_callback_rate_limit (s : State) (hs : s.count = 0) (ms : List Frame) :
    (∀ k, (CAN_run s ms).2[k]? =
      ms[k]?.map (fun m => if 60 ∣ k + 1 then
        [ LogLine.received (decode m).id,
          LogLine.values (decode m).eRPM (decode m).avgMotorCurrent (decode m).dutyCycleNow ]
        else [])) ∧
    ((CAN_run s ms).2.filter (fun l => !l.isEmpty)).length = ms.length / 60 ∧
    ((CAN_run s ms).2.map List.length).sum = 2 * (ms.length / 60) ∧
    (∀ j, 0 ≤ (CAN_run s (ms.take j)).1.count ∧ (CAN_run s (ms.take j)).1.count ≤ 59) := by
  obtain ⟨_, h2, h3, h4⟩ := CAN_run_spec ms s 0 (by simpa using hs) (by decide)
  refine ⟨?_, ?_, ?_, ?_⟩
  · intro k
    rw [h4 k]
    simp only [Nat.zero_add, Nat.dvd_iff_mod_eq_zero, logLines]
  · simpa using h2
  · simpa using h3
  · intro j
    obtain ⟨h1, _, _⟩ := CAN_run_spec (ms.take j) s 0 (by simpa using hs) (by decide)
    rw [h1]
    omega

/-- Witness of `CAN_callback_rate_limit`: 120 frames from the initial state give two log
emissions, four lines. -/
theorem CAN_callback_rate_limit_witness :
    State.init.count = 0 ∧
    ((CAN_run State.init (List.replicate 120 (send_can 6 0))).2.filter
      (fun l => !l.isEmpty)).length = 2 ∧
    ((CAN_run State.init (List.replicate 120 (send_can 6 0))).2.map List.length).sum = 4 :=
  have h := CAN_callback_rate_limit State.init rfl (List.replicate 120 (send_can 6 0))
  ⟨rfl, h.2.1.trans (by simp), h.2.2.1.trans (by simp)⟩

/-! ## Rounding -/

theorem roundHalfEven_intCast (n : Int) : roundHalfEven (n : ℚ) = n := by
  unfold roundHalfEven
  simp

theorem roundHalfEven_le (x : ℚ) (K : Int) (h : x ≤ K) : roundHalfEven x ≤ K := by
  have hf : ⌊x⌋ ≤ K := by
    have := Int.floor_le x
    exact_mod_cast (this.trans h : ((⌊x⌋ : Int) : ℚ) ≤ K)
  unfold roundHalfEven
  have key : 0 < x - ⌊x⌋ → ⌊x⌋ + 1 ≤ K := by
    intro hpos
    have h1 : ((⌊x⌋ : Int) : ℚ) < K := by linarith
    have : ⌊x⌋ < K := by exact_mod_cast h1
    omega
  split_ifs with h1 h2 h3
  · exact hf
  · exact key (by linarith)
  · exact hf
  · exact key (by linarith)

theorem le_roundHalfEven (x : ℚ) (K : Int) (h : (K : ℚ) ≤ x) : K ≤ roundHalfEven x := by
  have hf : K ≤ ⌊x⌋ := Int.le_floor.mpr h
  unfold roundHalfEven
  split_ifs <;> omega

theorem ulpExp_ge (p : Nat) (emin : Int) (q : ℚ) : emin ≤ ulpExp p emin q := le_max_left _ _

theorem abs_lt_zpow_ulpExp (p : Nat) (emin : Int) (q : ℚ) :
    |q| < 2 ^ (ulpExp p emin q + p) := by
  have h1 : |q| < ((2 : Nat) : ℚ) ^ (Int.log 2 |q| + 1) := Int.lt_zpow_succ_log_self (by decide) _
  have h2 : Int.log 2 |q| + 1 ≤ ulpExp p emin q + p := by
    have : Int.log 2 |q| + 1 - p ≤ ulpExp p emin q := le_max_right _ _
    omega
  calc |q| < (2 : ℚ) ^ (Int.log 2 |q| + 1) := by exact_mod_cast h1
    _ ≤ 2 ^ (ulpExp p emin q + p) := zpow_le_zpow_right₀ (by norm_num) h2

theorem fpRound_zero (p : Nat) (emin : Int) : fpRound p emin 0 = 0 := by
  unfold fpRound
  rw [zero_div, show (0 : ℚ) = ((0 : Int) : ℚ) from by simp, roundHalfEven_intCast]
  simp

theorem fpRound_exact (p : Nat) (emin : Int) (q : ℚ) (h : Representable p emin q) :
    fpRound p emin q = q := by
  obtain ⟨M, E, hq, hM, hE⟩ := h
  by_cases hM0 : M = 0
  · subst hM0
    simp only [Int.cast_zero, zero_mul] at hq
    rw [hq, fpRound_zero]
  have hqpos : 0 < |q| := by
    rw [hq]
    have : (0 : ℚ) < 2 ^ E := by positivity
    have : (M : ℚ) ≠ 0 := by exact_mod_cast hM0
    positivity
  have hlt : |q| < ((2 : Nat) : ℚ) ^ ((p : Int) + E) := by
    rw [hq, abs_mul, abs_of_pos (by positivity : (0 : ℚ) < 2 ^ E), zpow_add₀ (by norm_num)]
    have : |(M : ℚ)| < 2 ^ p := by exact_mod_cast hM
    have h2 : (0 : ℚ) < 2 ^ E := by positivity
    push_cast
    rw [zpow_natCast]
    exact mul_lt_mul_of_pos_right this h2
  have hlog : Int.log 2 |q| < p + E := (Int.lt_zpow_iff_log_lt (by decide) hqpos).mp hlt
  have he : ulpExp p emin q ≤ E := by
    unfold ulpExp
    exact max_le hE (by omega)
  unfold fpRound
  generalize ulpExp p emin q = e at he
  obtain ⟨d, hd⟩ : ∃ d : Nat, E = e + d := ⟨(E - e).toNat, by omega⟩
  have h2 : (2 : ℚ) ^ E = 2 ^ e * 2 ^ d := by
    rw [hd, zpow_add₀ (by norm_num), zpow_natCast]
  have hdiv : q / 2 ^ e = ((M * 2 ^ d : Int) : ℚ) := by
    rw [hq, h2]
    push_cast
    field_simp
    ring
  rw [hdiv, roundHalfEven_intCast, hq, h2]
  push_cast
  ring

theorem fpRound_representable (p : Nat) (hp : 1 ≤ p) (emin : Int) (q : ℚ) :
    Representable p emin (fpRound p emin q) := by
  have hlt := abs_lt_zpow_ulpExp p emin q
  have hge := ulpExp_ge p emin q
  unfold fpRound
  generalize ulpExp p emin q = e at hlt hge
  have hpos : (0 : ℚ) < 2 ^ e := by positivity
  have hx : |q / 2 ^ e| < 2 ^ p := by
    rw [abs_div, abs_of_pos hpos, div_lt_iff₀ hpos]
    rw [zpow_add₀ (by norm_num), zpow_natCast] at hlt
    linarith
  have hN : |roundHalfEven (q / 2 ^ e)| ≤ 2 ^ p :=
    abs_le.mpr ⟨le_roundHalfEven _ (-(2 ^ p)) (by push_cast; linarith [(abs_lt.mp hx).1]),
      roundHalfEven_le _ (2 ^ p) (by push_cast; linarith [(abs_lt.mp hx).2])⟩
  rcases lt_or_eq_of_le hN with h | h
  · exact ⟨_, e, rfl, h, hge⟩
  · obtain ⟨k, hk⟩ : ∃ k, p = k + 1 := ⟨p - 1, by omega⟩
    have h2 : (2 : ℚ) ^ (e + 1) = 2 ^ e * 2 := by
      rw [zpow_add₀ (by norm_num), zpow_one]
    have hk2 : |(2 : Int) ^ k| < 2 ^ p := by
      rw [abs_of_pos (by positivity), hk]
      exact pow_lt_pow_right₀ (by norm_num) (by omega)
    rcases (abs_eq (by positivity)).mp h with h' | h'
    · refine ⟨2 ^ k, e + 1, ?_, hk2, by omega⟩
      rw [h', hk, h2]
      push_cast
      ring
    · refine ⟨-(2 ^ k), e + 1, ?_, by rwa [abs_neg], by omega⟩
      rw [h', hk, h2]
      push_cast
      ring

theorem Representable.mono {p p' : Nat} {emin emin' : Int} {q : ℚ}
    (h : Representable p emin q) (hp : p ≤ p') (he : emin' ≤ emin) :
    Representable p' emin' q := by
  obtain ⟨M, E, hq, hM, hE⟩ := h
  exact ⟨M, E, hq, hM.trans_le (pow_le_pow_right₀ (by norm_num) hp), he.trans hE⟩

theorem Representable.neg {p : Nat} {emin : Int} {q : ℚ} (h : Representable p emin q) :
    Representable p emin (-q) := by
  obtain ⟨M, E, hq, hM, hE⟩ := h
  exact ⟨-M, E, by rw [hq]; push_cast; ring, by rwa [abs_neg], hE⟩

theorem toFloat_isFloat (q : ℚ) : IsFloat (toFloat q) :=
  fpRound_representable 24 (by decide) (-149) q

theorem toFloat_of_isFloat {q : ℚ} (h : IsFloat q) : toFloat q = q :=
  fpRound_exact 24 (-149) q h

theorem toDouble_of_isFloat {q : ℚ} (h : IsFloat q) : toDouble q = q :=
  fpRound_exact 53 (-1074) q (h.mono (by decide) (by decide))

/-- The product `percentPower * 100000.0` of a `float` and the `double` constant is exact:
it fits the 53 significand bits of a `double`. -/
theorem toDouble_mul_100000 {v : ℚ} (h : IsFloat v) : toDouble (v * 100000) = v * 100000 := by
  obtain ⟨M, E, hq, hM, hE⟩ := h
  apply fpRound_exact
  refine ⟨M * 100000, E, by rw [hq]; push_cast; ring, ?_, by omega⟩
  rw [abs_mul]
  have : |M| < 2 ^ 24 := hM
  norm_num at this ⊢
  omega

theorem roundHalfEven_down (x : ℚ) (f : Int) (h0 : (f : ℚ) ≤ x) (h1 : x - f < 1 / 2) :
    roundHalfEven x = f := by
  have hf : ⌊x⌋ = f := Int.floor_eq_iff.mpr ⟨h0, by linarith⟩
  unfold roundHalfEven
  rw [hf, if_pos h1]

theorem roundHalfEven_up (x : ℚ) (f : Int) (h0 : 1 / 2 < x - f) (h1 : x < f + 1) :
    roundHalfEven x = f + 1 := by
  have hf : ⌊x⌋ = f := Int.floor_eq_iff.mpr ⟨by linarith, h1⟩
  unfold roundHalfEven
  rw [hf, if_neg (by linarith), if_pos h0]

theorem roundHalfEven_tie (x : ℚ) (f : Int) (h : x = f + 1 / 2) :
    roundHalfEven x = if f % 2 = 0 then f else f + 1 := by
  have hf : ⌊x⌋ = f := Int.floor_eq_iff.mpr ⟨by linarith, by linarith⟩
  unfold roundHalfEven
  rw [hf, if_neg (by linarith), if_neg (by linarith)]

theorem log_abs_eq (q : ℚ) (k : Int) (h0 : (2 : ℚ) ^ k ≤ |q|) (h1 : |q| < 2 ^ (k + 1)) :
    Int.log 2 |q| = k := by
  have hpos : 0 < |q| := lt_of_lt_of_le (by positivity) h0
  have a : k ≤ Int.log 2 |q| :=
    (Int.zpow_le_iff_le_log (by decide) hpos).mp (by exact_mod_cast h0)
  have b : Int.log 2 |q| < k + 1 :=
    (Int.lt_zpow_iff_log_lt (by decide) hpos).mp (by exact_mod_cast h1)
  omega

theorem fpRound_eval (p : Nat) (emin : Int) (q : ℚ) (k e n : Int)
    (h0 : (2 : ℚ) ^ k ≤ |q|) (h1 : |q| < 2 ^ (k + 1)) (he : max emin (k + 1 - p) = e)
    (hn : roundHalfEven (q / 2 ^ e) = n) : fpRound p emin q = n * 2 ^ e := by
  unfold fpRound ulpExp
  rw [log_abs_eq q k h0 h1, he, hn]

theorem toFloat_three_fifths : toFloat (3 / 5) = 10066330 / 2 ^ 24 := by
  have h := fpRound_eval 24 (-149) (3 / 5) (-1) (-24) 10066330
    (by norm_num [abs_of_pos]) (by norm_num [abs_of_pos]) (by decide)
    (by
      have := roundHalfEven_up (3 / 5 / 2 ^ (-24 : Int)) 10066329 (by norm_num) (by norm_num)
      simpa using this)
  rw [toFloat, h]
  norm_num

/-! ## Duty cycle to wire value -/

theorem truncate_bounds (q : ℚ) :
    (0 ≤ q → (truncate q : ℚ) ≤ q ∧ q < truncate q + 1) ∧
    (q ≤ 0 → q ≤ truncate q ∧ (truncate q : ℚ) - 1 < q) := by
  unfold truncate
  constructor
  · intro h
    rw [if_pos h]
    exact ⟨Int.floor_le q, Int.lt_floor_add_one q⟩
  · intro h
    by_cases h0 : 0 ≤ q
    · have : q = 0 := le_antisymm h h0
      subst this
      simp
    · rw [if_neg h0]
      have := Int.ceil_lt_add_one q
      exact ⟨Int.le_ceil q, by linarith⟩

theorem truncate_range (q : ℚ) (K : Int) (h0 : -(K : ℚ) ≤ q) (h1 : q ≤ K) :
    -K ≤ truncate q ∧ truncate q ≤ K := by
  unfold truncate
  split
  · next h =>
    refine ⟨?_, ?_⟩
    · have : (0 : Int) ≤ ⌊q⌋ := Int.floor_nonneg.mpr h
      have hK : (0 : ℚ) ≤ K := h.trans h1
      have : (0 : Int) ≤ K := by exact_mod_cast hK
      omega
    · have := Int.floor_le q
      exact_mod_cast (this.trans h1 : ((⌊q⌋ : Int) : ℚ) ≤ K)
  · next h =>
    refine ⟨?_, ?_⟩
    · have := Int.le_ceil q
      have h2 : ((-K : Int) : ℚ) ≤ ⌈q⌉ := by push_cast; linarith
      exact_mod_cast h2
    · have : ⌈q⌉ ≤ 0 := Int.ceil_le.mpr (by push_cast; linarith)
      have hK : (0 : ℚ) ≤ K := by linarith
      have : (0 : Int) ≤ K := by exact_mod_cast hK
      omega

theorem toS32_of_range (q : ℚ) (h0 : -2 ^ 31 ≤ truncate q) (h1 : truncate q < 2 ^ 31) :
    toS32 q = truncate q := by
  unfold toS32
  rw [if_pos ⟨h0, h1⟩]

theorem vesc_set_duty_cycle_nominal (v : ℚ) (hv : IsFloat v) (h0 : -1 ≤ v) (h1 : v ≤ 1) :
    toS32 (toDouble (v * 100000)) = truncate (v * 100000) ∧
    -100000 ≤ truncate (v * 100000) ∧ truncate (v * 100000) ≤ 100000 := by
  have hr := truncate_range (v * 100000) 100000 (by push_cast; linarith) (by push_cast; linarith)
  refine ⟨?_, hr⟩
  rw [toDouble_mul_100000 hv]
  exact toS32_of_range _ (by norm_num; omega) (by norm_num; omega)

theorem isFloat_two_pow_neg17 : IsFloat (1 / 131072) :=
  ⟨1, -17, by norm_num, by norm_num, by norm_num⟩

theorem isFloat_half : IsFloat (1 / 2) :=
  ⟨1, -1, by norm_num, by norm_num, by norm_num⟩

theorem isFloat_zero : IsFloat 0 :=
  ⟨0, 0, by norm_num, by norm_num, by norm_num⟩

/-- C3, as stated, fails: for the `float` value `v = 2^-17` in `[-1, 1]` the product
`v * 100000 = 0.762939453125` is converted to the wire integer `0`, while
`round(v * 100000) = 1`; the payload read back is `0`. -/
theorem vesc_set_duty_cycle_not_round :
    IsFloat (1 / 131072) ∧ (-1 : ℚ) ≤ 1 / 131072 ∧ (1 / 131072 : ℚ) ≤ 1 ∧
    vesc_set_duty_cycle FRONT_LEFT_DRIVE (1 / 131072) = send_can FRONT_LEFT_DRIVE 0 ∧
    asS32 (decode (vesc_set_duty_cycle FRONT_LEFT_DRIVE (1 / 131072))).eRPM = 0 ∧
    spec_dutyCycleToWire (1 / 131072) = 1 ∧
    toS32 (toDouble (1 / 131072 * 100000)) ≠ spec_dutyCycleToWire (1 / 131072) := by
  have hw : toS32 (toDouble (1 / 131072 * 100000)) = 0 := by
    rw [(vesc_set_duty_cycle_nominal _ isFloat_two_pow_neg17 (by norm_num) (by norm_num)).1]
    unfold truncate
    norm_num
  have hs : spec_dutyCycleToWire (1 / 131072) = 1 := by
    unfold spec_dutyCycleToWire
    rw [round_eq, Int.floor_eq_iff]
    norm_num
  refine ⟨isFloat_two_pow_neg17, by norm_num, by norm_num, ?_, ?_, hs, ?_⟩
  · unfold vesc_set_duty_cycle
    rw [hw]
  · unfold vesc_set_duty_cycle
    rw [hw, decode_send_can]
    decide
  · rw [hw, hs]
    decide

/-- C3, amended: for every `float` value `v` in `[-1, 1]`, the wire integer that
`vesc_set_duty_cycle` hands to `send_can` is `v * 100000` truncated toward zero (the
product itself is exact); it lies in `[-100000, 100000]`, and the encoded payload read
back as a signed 32-bit integer is that same integer. -/
theorem vesc_set_duty_cycle_truncates (id : Nat) (v : ℚ) (hv : IsFloat v) (h0 : -1 ≤ v)
    (h1 : v ≤ 1) :
    vesc_set_duty_cycle id v = send_can id (truncate (v * 100000)) ∧
    (0 ≤ v → (truncate (v * 100000) : ℚ) ≤ v * 100000 ∧
      v * 100000 < truncate (v * 100000) + 1) ∧
    (v ≤ 0 → v * 100000 ≤ truncate (v * 100000) ∧
      (truncate (v * 100000) : ℚ) - 1 < v * 100000) ∧
    -100000 ≤ truncate (v * 100000) ∧ truncate (v * 100000) ≤ 100000 ∧
    asS32 (decode (vesc_set_duty_cycle id v)).eRPM = truncate (v * 100000) := by
  obtain ⟨hw, hlo, hhi⟩ := vesc_set_duty_cycle_nominal v hv h0 h1
  have hb := truncate_bounds (v * 100000)
  refine ⟨?_, ?_, ?_, hlo, hhi, ?_⟩
  · unfold vesc_set_duty_cycle
    rw [hw]
  · intro h
    exact hb.1 (by linarith)
  · intro h
    exact hb.2 (by linarith)
  · unfold vesc_set_duty_cycle
    rw [hw, decode_send_can]
    exact asS32_toU32 _ (by norm_num; omega) (by norm_num; omega)

/-- Witness of `vesc_set_duty_cycle_truncates` at `v = 0.5`: the wire integer is 50000. -/
theorem vesc_set_duty_cycle_truncates_witness :
    IsFloat (1 / 2) ∧ (-1 : ℚ) ≤ 1 / 2 ∧ (1 / 2 : ℚ) ≤ 1 ∧
    vesc_set_duty_cycle OFFLOAD_BELT_MOTOR (1 / 2)
      = send_can OFFLOAD_BELT_MOTOR (truncate (1 / 2 * 100000)) ∧
    truncate (1 / 2 * 100000) = 50000 :=
  ⟨isFloat_half, by norm_num, by norm_num,
   (vesc_set_duty_cycle_truncates OFFLOAD_BELT_MOTOR (1 / 2) isFloat_half (by norm_num)
      (by norm_num)).1,
   by unfold truncate; norm_num⟩

/-! ## The periodic tick -/

theorem toFloat_neg_one_mul (x : ℚ) :
    toFloat (toDouble (toFloat x * -1)) = -toFloat x := by
  have h : IsFloat (toFloat x * -1) := by
    rw [mul_neg_one]
    exact (toFloat_isFloat x).neg
  rw [toDouble_of_isFloat h, toFloat_of_isFloat h, mul_neg_one]

theorem toFloat_power (b : Bool) : toFloat (if b then 1 / 2 else 0) = if b then 1 / 2 else 0 := by
  cases b
  · exact toFloat_of_isFloat isFloat_zero
  · exact toFloat_of_isFloat isFloat_half

theorem vesc_set_duty_cycle_of (id : Nat) (v : ℚ) (n : Int) (hv : IsFloat v) (h0 : -1 ≤ v)
    (h1 : v ≤ 1) (hn : truncate (v * 100000) = n) :
    vesc_set_duty_cycle id v = send_can id n := by
  unfold vesc_set_duty_cycle
  rw [(vesc_set_duty_cycle_nominal v hv h0 h1).1, hn]

theorem vesc_set_duty_cycle_power (id : Nat) (b : Bool) :
    vesc_set_duty_cycle id (if b then 1 / 2 else 0) = send_can id (if b then 50000 else 0) := by
  cases b
  · exact vesc_set_duty_cycle_of id 0 0 isFloat_zero (by norm_num) (by norm_num)
      (by unfold truncate; norm_num)
  · exact vesc_set_duty_cycle_of id (1 / 2) 50000 isFloat_half (by norm_num) (by norm_num)
      (by unfold truncate; norm_num)

theorem timer_callback_frames (s : State) :
    (timer_callback s).2 =
      [ vesc_set_duty_cycle FRONT_LEFT_DRIVE
          (toFloat (s.linear_drive_power_cmd - s.angular_drive_power_cmd)),
        vesc_set_duty_cycle BACK_LEFT_DRIVE
          (toFloat (s.linear_drive_power_cmd - s.angular_drive_power_cmd)),
        vesc_set_duty_cycle FRONT_RIGHT_DRIVE
          (-toFloat (s.linear_drive_power_cmd + s.angular_drive_power_cmd)),
        vesc_set_duty_cycle BACK_RIGHT_DRIVE
          (-toFloat (s.linear_drive_power_cmd + s.angular_drive_power_cmd)),
        send_can DIGGER_ROTATION_MOTOR (if s.digging then 50000 else 0),
        send_can DIGGER_DRUM_BELT_MOTOR (if s.digging then 50000 else 0),
        send_can CONVEYOR_BELT_MOTOR (if s.digging then 50000 else 0),
        send_can OFFLOAD_BELT_MOTOR (if s.offloading then 50000 else 0) ] := by
  unfold timer_callback
  simp only [toFloat_neg_one_mul, DIGGER_ROTATION_POWER, DRUM_BELT_POWER, CONVEYOR_BELT_POWER,
    toFloat_power, vesc_set_duty_cycle_power]

theorem timer_callback_ids (s : State) :
    (timer_callback s).2.map Frame.id = [1, 2, 3, 4, 6, 7, 8, 9] := by
  rw [timer_callback_frames]
  rfl

/-- C5, as stated, fails: the tick from the initial state emits 8 frames, not 9, and none
of them carries the identifier of `DIGGER_DEPTH_MOTOR` (0x005). -/
theorem timer_callback_not_nine_frames :
    (timer_callback State.init).2.length = 8 ∧
    (timer_callback State.init).2.length ≠ 9 ∧
    DIGGER_DEPTH_MOTOR ∉ (timer_callback State.init).2.map Frame.id := by
  have h := timer_callback_ids State.init
  have hl : (timer_callback State.init).2.length = 8 := by
    rw [← List.length_map (timer_callback State.init).2 Frame.id, h]
    rfl
  refine ⟨hl, by rw [hl]; decide, ?_⟩
  rw [h]
  decide

/-- C5, amended: for every state, one tick emits exactly 8 outbound frames, one for each
of the eight motor identifiers 0x001 to 0x004 and 0x006 to 0x009, in that order (so the
ids of the frames of one tick are pairwise distinct); no frame is sent to
`DIGGER_DEPTH_MOTOR` (0x005). -/
theorem timer_callback_eight_frames (s : State) :
    (timer_callback s).2.length = 8 ∧
    (timer_callback s).2.map Frame.id =
      [FRONT_LEFT_DRIVE, BACK_LEFT_DRIVE, FRONT_RIGHT_DRIVE, BACK_RIGHT_DRIVE,
       DIGGER_ROTATION_MOTOR, DIGGER_DRUM_BELT_MOTOR, CONVEYOR_BELT_MOTOR,
       OFFLOAD_BELT_MOTOR] ∧
    (timer_callback s).2.map Frame.id = [0x001, 0x002, 0x003, 0x004, 0x006, 0x007, 0x008, 0x009] ∧
    ((timer_callback s).2.map Frame.id).Nodup ∧
    DIGGER_DEPTH_MOTOR ∉ (timer_callback s).2.map Frame.id := by
  have h := timer_callback_ids s
  refine ⟨?_, h, h, ?_, ?_⟩
  · rw [← List.length_map (timer_callback s).2 Frame.id, h]
    rfl
  · rw [h]
    decide
  · rw [h]
    decide

/-- C7: for every state, the tick sends to `DIGGER_ROTATION_MOTOR`,
`DIGGER_DRUM_BELT_MOTOR` and `CONVEYOR_BELT_MOTOR` the duty-cycle command of their
configured power (each 0.5, wire value 50000) when `digging` is true and 0 (payload
`00 00 00 00`) when it is false, and to `OFFLOAD_BELT_MOTOR` the command
`CONVEYOR_BELT_POWER` when `offloading` is true and 0 when it is false; the drive command
has no influence on these four frames. -/
theorem timer_callback_actuators (s : State) :
    (timer_callback s).2.drop 4 =
      [ vesc_set_duty_cycle DIGGER_ROTATION_MOTOR (if s.digging then DIGGER_ROTATION_POWER else 0),
        vesc_set_duty_cycle DIGGER_DRUM_BELT_MOTOR (if s.digging then DRUM_BELT_POWER else 0),
        vesc_set_duty_cycle CONVEYOR_BELT_MOTOR (if s.digging then CONVEYOR_BELT_POWER else 0),
        vesc_set_duty_cycle OFFLOAD_BELT_MOTOR
          (if s.offloading then CONVEYOR_BELT_POWER else 0) ] ∧
    (timer_callback s).2.drop 4 =
      [ send_can DIGGER_ROTATION_MOTOR (if s.digging then 50000 else 0),
        send_can DIGGER_DRUM_BELT_MOTOR (if s.digging then 50000 else 0),
        send_can CONVEYOR_BELT_MOTOR (if s.digging then 50000 else 0),
        send_can OFFLOAD_BELT_MOTOR (if s.offloading then 50000 else 0) ] ∧
    DIGGER_ROTATION_POWER = 1 / 2 ∧ DRUM_BELT_POWER = 1 / 2 ∧ CONVEYOR_BELT_POWER = 1 / 2 ∧
    (∀ id, (send_can id 0).data.take 4 = [0x00, 0x00, 0x00, 0x00]) ∧
    (∀ id, (send_can id 50000).data.take 4 = [0x00, 0x00, 0xC3, 0x50]) ∧
    (∀ linear angular : ℚ,
      (timer_callback { s with linear_drive_power_cmd := linear,
                               angular_drive_power_cmd := angular }).2.drop 4 =
        (timer_callback s).2.drop 4) := by
  refine ⟨?_, ?_, rfl, rfl, rfl, ?_, ?_, ?_⟩
  · rw [timer_callback_frames]
    simp only [DIGGER_ROTATION_POWER, DRUM_BELT_POWER, CONVEYOR_BELT_POWER,
      vesc_set_duty_cycle_power, List.drop_succ_cons, List.drop_zero]
  · rw [timer_callback_frames]
    simp only [List.drop_succ_cons, List.drop_zero]
  · intro id
    rw [send_can_data]
    decide
  · intro id
    rw [send_can_data]
    decide
  · intro linear angular
    rw [timer_callback_frames, timer_callback_frames]
    simp only [List.drop_succ_cons, List.drop_zero]

/-! ## The drive example: linear 0.6, angular 0.2 -/

theorem toFloat_one_fifth : toFloat (1 / 5) = 13421773 / 2 ^ 26 := by
  have h := fpRound_eval 24 (-149) (1 / 5) (-3) (-26) 13421773
    (by norm_num [abs_of_pos]) (by norm_num [abs_of_pos]) (by decide)
    (by
      have := roundHalfEven_up (1 / 5 / 2 ^ (-26 : Int)) 13421772 (by norm_num) (by norm_num)
      simpa using this)
  rw [toFloat, h]
  norm_num

theorem toFloat_two_fifths : toFloat (2 / 5) = 13421773 / 2 ^ 25 := by
  have h := fpRound_eval 24 (-149) (2 / 5) (-2) (-25) 13421773
    (by norm_num [abs_of_pos]) (by norm_num [abs_of_pos]) (by decide)
    (by
      have := roundHalfEven_up (2 / 5 / 2 ^ (-25 : Int)) 13421772 (by norm_num) (by norm_num)
      simpa using this)
  rw [toFloat, h]
  norm_num

theorem toFloat_neg_four_fifths : toFloat (-4 / 5) = -(13421773 / 2 ^ 24) := by
  have h := fpRound_eval 24 (-149) (-4 / 5) (-1) (-24) (-13421773)
    (by norm_num [abs_of_neg]) (by norm_num [abs_of_neg]) (by decide)
    (by
      have := roundHalfEven_down (-4 / 5 / 2 ^ (-24 : Int)) (-13421773) (by norm_num)
        (by norm_num)
      simpa using this)
  rw [toFloat, h]
  norm_num

theorem toFloat_difference :
    toFloat (10066330 / 2 ^ 24 - 13421773 / 2 ^ 26) = 13421774 / 2 ^ 25 := by
  have h := fpRound_eval 24 (-149) (10066330 / 2 ^ 24 - 13421773 / 2 ^ 26) (-2) (-25) 13421774
    (by norm_num [abs_of_pos]) (by norm_num [abs_of_pos]) (by decide)
    (by
      have := roundHalfEven_tie ((10066330 / 2 ^ 24 - 13421773 / 2 ^ 26) / 2 ^ (-25 : Int))
        13421773 (by norm_num)
      simpa using this)
  rw [toFloat, h]
  norm_num

theorem toFloat_sum :
    toFloat (10066330 / 2 ^ 24 + 13421773 / 2 ^ 26) = 13421773 / 2 ^ 24 := by
  have h := fpRound_eval 24 (-149) (10066330 / 2 ^ 24 + 13421773 / 2 ^ 26) (-1) (-24) 13421773
    (by norm_num [abs_of_pos]) (by norm_num [abs_of_pos]) (by decide)
    (by
      have := roundHalfEven_down ((10066330 / 2 ^ 24 + 13421773 / 2 ^ 26) / 2 ^ (-24 : Int))
        13421773 (by norm_num) (by norm_num)
      simpa using this)
  rw [toFloat, h]
  norm_num

theorem wire_left_example (id : Nat) :
    vesc_set_duty_cycle id (13421774 / 2 ^ 25) = send_can id 40000 := by
  have hf : IsFloat (13421774 / 2 ^ 25) := by
    rw [← toFloat_difference]
    exact toFloat_isFloat _
  exact vesc_set_duty_cycle_of id _ 40000 hf (by norm_num) (by norm_num)
    (by unfold truncate; norm_num [Int.floor_eq_iff])

theorem wire_two_fifths (id : Nat) :
    vesc_set_duty_cycle id (13421773 / 2 ^ 25) = send_can id 40000 := by
  have hf : IsFloat (13421773 / 2 ^ 25) := by
    rw [← toFloat_two_fifths]
    exact toFloat_isFloat _
  exact vesc_set_duty_cycle_of id _ 40000 hf (by norm_num) (by norm_num)
    (by unfold truncate; norm_num [Int.floor_eq_iff])

theorem wire_right_example (id : Nat) :
    vesc_set_duty_cycle id (-(13421773 / 2 ^ 24)) = send_can id (-80000) := by
  have hf : IsFloat (-(13421773 / 2 ^ 24)) := by
    rw [← toFloat_neg_four_fifths]
    exact toFloat_isFloat _
  exact vesc_set_duty_cycle_of id _ (-80000) hf (by norm_num) (by norm_num)
    (by unfold truncate; norm_num [Int.ceil_eq_iff])

/-- C4: for every drive state, one tick sends to `FRONT_LEFT_DRIVE` (0x001) and
`BACK_LEFT_DRIVE` (0x002) the same duty-cycle command, the `float` difference
`linear - angular`, and to `FRONT_RIGHT_DRIVE` (0x003) and `BACK_RIGHT_DRIVE` (0x004) the
same command, the negated `float` sum `-(linear + angular)`; the two frames of one side
have the same payload bytes. With linear the `float` 0.6 and angular the `float` 0.2, the
left frames are those of the duty cycle 0.4 (wire value 40000) and the right frames those
of the duty cycle -0.8 (wire value -80000). -/
theorem timer_callback_drive (s : State) :
    (timer_callback s).2.take 4 =
      [ vesc_set_duty_cycle FRONT_LEFT_DRIVE
          (toFloat (s.linear_drive_power_cmd - s.angular_drive_power_cmd)),
        vesc_set_duty_cycle BACK_LEFT_DRIVE
          (toFloat (s.linear_drive_power_cmd - s.angular_drive_power_cmd)),
        vesc_set_duty_cycle FRONT_RIGHT_DRIVE
          (-toFloat (s.linear_drive_power_cmd + s.angular_drive_power_cmd)),
        vesc_set_duty_cycle BACK_RIGHT_DRIVE
          (-toFloat (s.linear_drive_power_cmd + s.angular_drive_power_cmd)) ] ∧
    FRONT_LEFT_DRIVE = 0x001 ∧ BACK_LEFT_DRIVE = 0x002 ∧
    FRONT_RIGHT_DRIVE = 0x003 ∧ BACK_RIGHT_DRIVE = 0x004 ∧
    (∃ left right : List Nat,
      ((timer_callback s).2.take 4).map Frame.data = [left, left, right, right]) ∧
    (timer_callback { s with linear_drive_power_cmd := toFloat (3 / 5),
                             angular_drive_power_cmd := toFloat (1 / 5) }).2.take 4 =
      [ vesc_set_duty_cycle FRONT_LEFT_DRIVE (toFloat (2 / 5)),
        vesc_set_duty_cycle BACK_LEFT_DRIVE (toFloat (2 / 5)),
        vesc_set_duty_cycle FRONT_RIGHT_DRIVE (toFloat (-4 / 5)),
        vesc_set_duty_cycle BACK_RIGHT_DRIVE (toFloat (-4 / 5)) ] ∧
    (timer_callback { s with linear_drive_power_cmd := toFloat (3 / 5),
                             angular_drive_power_cmd := toFloat (1 / 5) }).2.take 4 =
      [ send_can FRONT_LEFT_DRIVE 40000, send_can BACK_LEFT_DRIVE 40000,
        send_can FRONT_RIGHT_DRIVE (-80000), send_can BACK_RIGHT_DRIVE (-80000) ] := by
  have hex : (timer_callback
      { s with linear_drive_power_cmd := toFloat (3 / 5)
               angular_drive_power_cmd := toFloat (1 / 5) }).2.take 4 =
      [ send_can FRONT_LEFT_DRIVE 40000, send_can BACK_LEFT_DRIVE 40000,
        send_can FRONT_RIGHT_DRIVE (-80000), send_can BACK_RIGHT_DRIVE (-80000) ] := by
    rw [timer_callback_frames]
    simp only [List.take_succ_cons, List.take_zero, toFloat_three_fifths, toFloat_one_fifth,
      toFloat_difference, toFloat_sum, wire_left_example, wire_right_example]
  refine ⟨?_, rfl, rfl, rfl, rfl, ?_, ?_, hex⟩
  · rw [timer_callback_frames]
    simp only [List.take_succ_cons, List.take_zero]
  · rw [timer_callback_frames]
    refine ⟨(vesc_set_duty_cycle FRONT_LEFT_DRIVE
        (toFloat (s.linear_drive_power_cmd - s.angular_drive_power_cmd))).data,
      (vesc_set_duty_cycle FRONT_RIGHT_DRIVE
        (-toFloat (s.linear_drive_power_cmd + s.angular_drive_power_cmd))).data, ?_⟩
    simp only [List.take_succ_cons, List.take_zero, List.map_cons, List.map_nil,
      vesc_set_duty_cycle, send_can_data]
  · rw [hex]
    simp only [toFloat_two_fifths, toFloat_neg_four_fifths, wire_two_fifths,
      wire_right_example]

/-! ## Ignored commands -/

theorem found_eq_false {text tok : String} (h : ¬ tok.data <:+: text.data) :
    found text tok = false := by
  rw [← Bool.not_eq_true, found_iff]
  exact h

theorem actuators_callback_none (s : State) (msg : String)
    (h1 : found msg "STOP_ALL_ACTUATORS" = false) (h2 : found msg "DIGGER_ON" = false)
    (h3 : found msg "OFFLOADER_ON" = false) (h4 : found msg "DIGGER_OFF" = false)
    (h5 : found msg "OFFLOADER_OFF" = false) : actuators_callback s msg = s :=
  actuators_callback_of s msg false false false false false h1 h2 h3 h4 h5

theorem actuators_callback_frame (s : State) (msg : String) :
    (actuators_callback s msg).linear_drive_power_cmd = s.linear_drive_power_cmd ∧
    (actuators_callback s msg).angular_drive_power_cmd = s.angular_drive_power_cmd ∧
    (actuators_callback s msg).count = s.count := by
  rw [actuators_callback_of s msg _ _ _ _ _ rfl rfl rfl rfl rfl]
  exact ⟨rfl, rfl, rfl⟩

/-- C11: for every prior state and every command string that contains none of
`STOP_ALL_ACTUATORS`, `DIGGER_ON`, `OFFLOADER_ON`, `DIGGER_OFF`, `OFFLOADER_OFF` as a
substring, `actuators_callback` leaves `digging` and `offloading` (indeed the whole state)
unchanged; so do the messages `EXTEND_DIGGER`, `RETRACT_DIGGER`, `BEGIN_DIG_PROCEDURE`, the
empty string and the lower-case `digger_on`; and no actuator message changes the drive
command or the frame counter. -/
theorem actuators_callback_ignores (s : State) (msg : String) :
    (¬ "STOP_ALL_ACTUATORS".data <:+: msg.data → ¬ "DIGGER_ON".data <:+: msg.data →
      ¬ "OFFLOADER_ON".data <:+: msg.data → ¬ "DIGGER_OFF".data <:+: msg.data →
      ¬ "OFFLOADER_OFF".data <:+: msg.data →
      (actuators_callback s msg).digging = s.digging ∧
      (actuators_callback s msg).offloading = s.offloading ∧
      actuators_callback s msg = s) ∧
    actuators_callback s "EXTEND_DIGGER" = s ∧
    actuators_callback s "RETRACT_DIGGER" = s ∧
    actuators_callback s "BEGIN_DIG_PROCEDURE" = s ∧
    actuators_callback s "" = s ∧
    actuators_callback s "digger_on" = s ∧
    (actuators_callback s msg).linear_drive_power_cmd = s.linear_drive_power_cmd ∧
    (actuators_callback s msg).angular_drive_power_cmd = s.angular_drive_power_cmd ∧
    (actuators_callback s msg).count = s.count := by
  refine ⟨?_, ?_, ?_, ?_, ?_, ?_, actuators_callback_frame s msg⟩
  · intro h1 h2 h3 h4 h5
    have h := actuators_callback_none s msg (found_eq_false h1) (found_eq_false h2)
      (found_eq_false h3) (found_eq_false h4) (found_eq_false h5)
    rw [h]
    exact ⟨rfl, rfl, rfl⟩
  · exact actuators_callback_none s _ (by decide) (by decide) (by decide) (by decide) (by decide)
  · exact actuators_callback_none s _ (by decide) (by decide) (by decide) (by decide) (by decide)
  · exact actuators_callback_none s _ (by decide) (by decide) (by decide) (by decide) (by decide)
  · exact actuators_callback_none s _ (by decide) (by decide) (by decide) (by decide) (by decide)
  · exact actuators_callback_none s _ (by decide) (by decide) (by decide) (by decide) (by decide)

/-- Witness of `actuators_callback_ignores`: an unknown command while digging. -/
theorem actuators_callback_ignores_witness :
    (actuators_callback { State.init with digging := true } "RAISE_THE_FLAG").digging = true ∧
    (actuators_callback { State.init with digging := true } "RAISE_THE_FLAG").offloading
      = false :=
  have h := (actuators_callback_ignores { State.init with digging := true }
    "RAISE_THE_FLAG").1 (by decide) (by decide) (by decide) (by decide) (by decide)
  ⟨h.1, h.2.1⟩

/-! ## Idempotence of actuator commands -/

/-- C16: for every prior state and every command string, applying `actuators_callback`
with the string twice in a row leaves the same `digging` and `offloading` (indeed the same
state) as applying it once. -/
theorem actuators_callback_idempotent (s : State) (msg : String) :
    (actuators_callback (actuators_callback s msg) msg).digging
      = (actuators_callback s msg).digging ∧
    (actuators_callback (actuators_callback s msg) msg).offloading
      = (actuators_callback s msg).offloading ∧
    actuators_callback (actuators_callback s msg) msg = actuators_callback s msg := by
  have h : actuators_callback (actuators_callback s msg) msg = actuators_callback s msg := by
    rw [actuators_callback_of (actuators_callback s msg) msg _ _ _ _ _ rfl rfl rfl rfl rfl,
      actuators_callback_of s msg _ _ _ _ _ rfl rfl rfl rfl rfl]
    cases found msg "STOP_ALL_ACTUATORS" <;> cases found msg "DIGGER_ON" <;>
      cases found msg "OFFLOADER_ON" <;> cases found msg "DIGGER_OFF" <;>
      cases found msg "OFFLOADER_OFF" <;> rfl
  exact ⟨by rw [h], by rw [h], h⟩

/-! ## The status example -/

/-- C12: decoding the status payload `[0,0,0,100, 0,20, 0,500]` gives `eRPM = 100`,
`avgMotorCurrent = 2` and `dutyCycleNow = 0`. The last entry is not a byte; the byte a
`uint8_t` holds for it, `500 mod 256 = 244`, gives the same three values, and so does the
big-endian encoding `1, 244` of 500 in bytes 6 and 7. -/
theorem decode_example (can_msg : Frame) :
    (decode { can_msg with data := [0, 0, 0, 100, 0, 20, 0, 500] }).eRPM = 100 ∧
    (decode { can_msg with data := [0, 0, 0, 100, 0, 20, 0, 500] }).avgMotorCurrent = 2 ∧
    (decode { can_msg with data := [0, 0, 0, 100, 0, 20, 0, 500] }).dutyCycleNow = 0 ∧
    (decode { can_msg with data := [0, 0, 0, 100, 0, 20, 0, 500 % 256] }).eRPM = 100 ∧
    (decode { can_msg with data := [0, 0, 0, 100, 0, 20, 0, 500 % 256] }).avgMotorCurrent = 2 ∧
    (decode { can_msg with data := [0, 0, 0, 100, 0, 20, 0, 500 % 256] }).dutyCycleNow = 0 ∧
    (decode { can_msg with data := [0, 0, 0, 100, 0, 20, 1, 244] }).eRPM = 100 ∧
    (decode { can_msg with data := [0, 0, 0, 100, 0, 20, 1, 244] }).avgMotorCurrent = 2 ∧
    (decode { can_msg with data := [0, 0, 0, 100, 0, 20, 1, 244] }).dutyCycleNow = 0 := by
  refine ⟨?_, ?_, ?_, ?_, ?_, ?_, ?_, ?_, ?_⟩ <;>
    simp only [decode, List.getD_cons_zero, List.getD_cons_succ] <;> decide

/-! ## Tick idempotence -/

/-- C13: `timer_callback` leaves the state (drive command, actuator flags, frame counter)
as it was, its frame list does not depend on the frame counter, so it is a function of
`(linear, angular, digging, offloading)` only, and a second tick right after the first
emits the same frame list, frame by frame. -/
theorem timer_callback_idempotent (s : State) :
    (timer_callback s).1 = s ∧
    (∀ (linear angular : ℚ) (digging offloading : Bool) (count count2 : Int),
      (timer_callback ⟨linear, angular, digging, offloading, count⟩).2 =
        (timer_callback ⟨linear, angular, digging, offloading, count2⟩).2) ∧
    (timer_callback (timer_callback s).1).2 = (timer_callback s).2 ∧
    (timer_callback (timer_callback s).1).1 = s := by
  have h : (timer_callback s).1 = s := by simp only [timer_callback]
  refine ⟨h, ?_, by rw [h], by rw [h, h]⟩
  intro linear angular digging offloading count count2
  simp only [timer_callback]

/-! ## Stop, end to end -/

theorem timer_callback_after_stop (s : State) (hd : s.digging = false)
    (ho : s.offloading = false) :
    (timer_callback s).2.drop 4 =
      [ send_can DIGGER_ROTATION_MOTOR 0, send_can DIGGER_DRUM_BELT_MOTOR 0,
        send_can CONVEYOR_BELT_MOTOR 0, send_can OFFLOAD_BELT_MOTOR 0 ] := by
  rw [timer_callback_frames]
  simp only [List.drop_succ_cons, List.drop_zero, hd, ho, Bool.false_eq_true, if_false]

/-- C14: for every prior state and every command string that contains
`STOP_ALL_ACTUATORS` and neither `DIGGER_ON` nor `OFFLOADER_ON`, the tick after
`actuators_callback` sends payload `00 00 00 00` to the four actuator motors; and after
the command `DIGGER_ON STOP_ALL_ACTUATORS`, which contains the stop token, the next tick
sends the duty cycle 50000 (payload `00 00 C3 50`) to the three digging motors. -/
theorem stop_all_end_to_end (s : State) (msg : String) :
    ("STOP_ALL_ACTUATORS".data <:+: msg.data → ¬ "DIGGER_ON".data <:+: msg.data →
      ¬ "OFFLOADER_ON".data <:+: msg.data →
      (timer_callback (actuators_callback s msg)).2.drop 4 =
        [ send_can DIGGER_ROTATION_MOTOR 0, send_can DIGGER_DRUM_BELT_MOTOR 0,
          send_can CONVEYOR_BELT_MOTOR 0, send_can OFFLOAD_BELT_MOTOR 0 ] ∧
      ((timer_callback (actuators_callback s msg)).2.drop 4).map (fun f => f.data.take 4) =
        [[0, 0, 0, 0], [0, 0, 0, 0], [0, 0, 0, 0], [0, 0, 0, 0]]) ∧
    "STOP_ALL_ACTUATORS".data <:+: "DIGGER_ON STOP_ALL_ACTUATORS".data ∧
    (timer_callback (actuators_callback s "DIGGER_ON STOP_ALL_ACTUATORS")).2.drop 4 =
      [ send_can DIGGER_ROTATION_MOTOR 50000, send_can DIGGER_DRUM_BELT_MOTOR 50000,
        send_can CONVEYOR_BELT_MOTOR 50000, send_can OFFLOAD_BELT_MOTOR 0 ] ∧
    ((timer_callback (actuators_callback s "DIGGER_ON STOP_ALL_ACTUATORS")).2.drop 4).map
        (fun f => f.data.take 4) =
      [[0, 0, 0xC3, 0x50], [0, 0, 0xC3, 0x50], [0, 0, 0xC3, 0x50], [0, 0, 0, 0]] := by
  have hon : (timer_callback (actuators_callback s "DIGGER_ON STOP_ALL_ACTUATORS")).2.drop 4 =
      [ send_can DIGGER_ROTATION_MOTOR 50000, send_can DIGGER_DRUM_BELT_MOTOR 50000,
        send_can CONVEYOR_BELT_MOTOR 50000, send_can OFFLOAD_BELT_MOTOR 0 ] := by
    rw [timer_callback_frames,
      actuators_callback_of s "DIGGER_ON STOP_ALL_ACTUATORS" true true false false false
        (by decide) (by decide) (by decide) (by decide) (by decide)]
    simp only [List.drop_succ_cons, List.drop_zero]
    rfl
  refine ⟨?_, by decide, hon, ?_⟩
  · intro h1 h2 h3
    have hd : (actuators_callback s msg).digging = false := by
      rw [actuators_callback_digging, (found_iff _ _).mpr h1, found_eq_false h2]
      cases found msg "DIGGER_OFF" <;> rfl
    have ho : (actuators_callback s msg).offloading = false := by
      rw [actuators_callback_offloading, (found_iff _ _).mpr h1, found_eq_false h3]
      cases found msg "OFFLOADER_OFF" <;> rfl
    have h := timer_callback_after_stop _ hd ho
    refine ⟨h, ?_⟩
    rw [h]
    simp only [List.map_cons, List.map_nil, send_can_data]
    decide
  · rw [hon]
    simp only [List.map_cons, List.map_nil, send_can_data]
    decide

/-- Witness of `stop_all_end_to_end`: a stop together with `DIGGER_OFF`, while digging and
offloading. -/
theorem stop_all_end_to_end_witness :
    (timer_callback (actuators_callback
      { State.init with digging := true, offloading := true }
      "DIGGER_OFF STOP_ALL_ACTUATORS")).2.drop 4 =
        [ send_can DIGGER_ROTATION_MOTOR 0, send_can DIGGER_DRUM_BELT_MOTOR 0,
          send_can CONVEYOR_BELT_MOTOR 0, send_can OFFLOAD_BELT_MOTOR 0 ] :=
  ((stop_all_end_to_end { State.init with digging := true, offloading := true }
      "DIGGER_OFF STOP_ALL_ACTUATORS").1 (by decide) (by decide) (by decide)).1

/-! ## Range of the wire values -/

theorem fpRound_abs_le (p : Nat) (hp : 1 ≤ p) (emin m : Int) (hm : emin ≤ m) (x : ℚ)
    (hx : |x| ≤ 2 ^ m) : |fpRound p emin x| ≤ 2 ^ m := by
  by_cases hx0 : x = 0
  · subst hx0
    rw [fpRound_zero, abs_zero]
    positivity
  have hpos : 0 < |x| := abs_pos.mpr hx0
  have hlog : Int.log 2 |x| ≤ m := by
    have h := Int.log_mono_right (b := 2) hpos
      (show |x| ≤ ((2 : ℕ) : ℚ) ^ m from by exact_mod_cast hx)
    rwa [Int.log_zpow (by decide)] at h
  have he : ulpExp p emin x ≤ m := by
    unfold ulpExp
    exact max_le hm (by omega)
  unfold fpRound
  generalize ulpExp p emin x = e at he
  obtain ⟨d, hd⟩ : ∃ d : Nat, m = e + d := ⟨(m - e).toNat, by omega⟩
  have hpe : (0 : ℚ) < 2 ^ e := by positivity
  have h2 : (2 : ℚ) ^ m = ((2 ^ d : Int) : ℚ) * 2 ^ e := by
    rw [hd, zpow_add₀ (by norm_num), zpow_natCast]
    push_cast
    ring
  have hle : x / 2 ^ e ≤ ((2 ^ d : Int) : ℚ) := by
    rw [div_le_iff₀ hpe, ← h2]
    exact (le_abs_self x).trans hx
  have hge : ((-(2 ^ d) : Int) : ℚ) ≤ x / 2 ^ e := by
    rw [le_div_iff₀ hpe]
    push_cast
    have := neg_abs_le x
    have h3 : (2 : ℚ) ^ m = 2 ^ d * 2 ^ e := by rw [h2]; push_cast; ring
    linarith
  have hN1 := roundHalfEven_le _ _ hle
  have hN2 := le_roundHalfEven _ _ hge
  rw [abs_mul, abs_of_pos hpe, h2]
  apply mul_le_mul_of_nonneg_right _ hpe.le
  rw [abs_le]
  constructor
  · exact_mod_cast hN2
  · exact_mod_cast hN1

theorem toFloat_abs_le_two (x : ℚ) (hx : |x| ≤ 2) : |toFloat x| ≤ 2 := by
  have h := fpRound_abs_le 24 (by decide) (-149) 1 (by decide) x (by simpa using hx)
  simpa [toFloat] using h

theorem timer_callback_eq_commands (s : State) :
    (timer_callback s).2 =
      (timer_callback_commands s).map (fun c => vesc_set_duty_cycle c.1 c.2) := by
  simp only [timer_callback, timer_callback_commands, List.map_cons, List.map_nil]

theorem wire_in_range (v : ℚ) (hv : IsFloat v) (h : |v| ≤ 2) :
    -2 ≤ v ∧ v ≤ 2 ∧
    -200000 ≤ truncate (toDouble (v * 100000)) ∧ truncate (toDouble (v * 100000)) ≤ 200000 ∧
    -2 ^ 31 ≤ truncate (toDouble (v * 100000)) ∧ truncate (toDouble (v * 100000)) < 2 ^ 31 ∧
    toS32 (toDouble (v * 100000)) = truncate (toDouble (v * 100000)) := by
  obtain ⟨h0, h1⟩ := abs_le.mp h
  rw [toDouble_mul_100000 hv]
  obtain ⟨t0, t1⟩ := truncate_range (v * 100000) 200000 (by push_cast; linarith)
    (by push_cast; linarith)
  have r0 : -2 ^ 31 ≤ truncate (v * 100000) := by norm_num; omega
  have r1 : truncate (v * 100000) < 2 ^ 31 := by norm_num; omega
  exact ⟨h0, h1, t0, t1, r0, r1, toS32_of_range _ r0 r1⟩

theorem wire_of_power (b : Bool) :
    toS32 (toDouble (toFloat (if b then 1 / 2 else 0) * 100000)) = 0 ∨
    toS32 (toDouble (toFloat (if b then 1 / 2 else 0) * 100000)) = 50000 := by
  rw [toFloat_power]
  cases b
  · left
    simp only [Bool.false_eq_true, if_false]
    rw [(vesc_set_duty_cycle_nominal 0 isFloat_zero (by norm_num) (by norm_num)).1]
    unfold truncate
    norm_num
  · right
    simp only [if_true]
    rw [(vesc_set_duty_cycle_nominal (1 / 2) isFloat_half (by norm_num) (by norm_num)).1]
    unfold truncate
    norm_num

/-- C15: for every drive command with linear and angular in `[-1, 1]` and every actuator
state, every duty-cycle value the tick passes to `vesc_set_duty_cycle` lies in `[-2, 2]`
and its wire integer lies in `[-200000, 200000]`, so the conversion to `S32` stays inside
`[-2^31, 2^31 - 1]` and is the plain truncation; the four actuator wire values are 0 or
50000. -/
theorem timer_callback_no_overflow (s : State)
    (hl0 : -1 ≤ s.linear_drive_power_cmd) (hl1 : s.linear_drive_power_cmd ≤ 1)
    (ha0 : -1 ≤ s.angular_drive_power_cmd) (ha1 : s.angular_drive_power_cmd ≤ 1) :
    (timer_callback s).2 =
      (timer_callback_commands s).map (fun c => vesc_set_duty_cycle c.1 c.2) ∧
    (∀ c ∈ timer_callback_commands s,
      -2 ≤ c.2 ∧ c.2 ≤ 2 ∧
      -200000 ≤ truncate (toDouble (c.2 * 100000)) ∧
      truncate (toDouble (c.2 * 100000)) ≤ 200000 ∧
      -2 ^ 31 ≤ truncate (toDouble (c.2 * 100000)) ∧
      truncate (toDouble (c.2 * 100000)) < 2 ^ 31 ∧
      toS32 (toDouble (c.2 * 100000)) = truncate (toDouble (c.2 * 100000))) ∧
    (∀ c ∈ (timer_callback_commands s).drop 4,
      toS32 (toDouble (c.2 * 100000)) = 0 ∨ toS32 (toDouble (c.2 * 100000)) = 50000) := by
  have hdiff : |toFloat (s.linear_drive_power_cmd - s.angular_drive_power_cmd)| ≤ 2 :=
    toFloat_abs_le_two _ (abs_le.mpr ⟨by linarith, by linarith⟩)
  have hsum : |toFloat (toDouble
      (toFloat (s.linear_drive_power_cmd + s.angular_drive_power_cmd) * -1))| ≤ 2 := by
    rw [toFloat_neg_one_mul, abs_neg]
    exact toFloat_abs_le_two _ (abs_le.mpr ⟨by linarith, by linarith⟩)
  have hpow : ∀ b : Bool, |toFloat (if b then (1 / 2 : ℚ) else 0)| ≤ 2 := by
    intro b
    rw [toFloat_power]
    cases b
    · norm_num
    · simp only [if_true]
      rw [abs_of_pos (by norm_num)]
      norm_num
  refine ⟨timer_callback_eq_commands s, ?_, ?_⟩
  · intro c hc
    simp only [timer_callback_commands, List.mem_cons, List.mem_singleton, List.not_mem_nil,
      or_false, DIGGER_ROTATION_POWER, DRUM_BELT_POWER, CONVEYOR_BELT_POWER] at hc
    rcases hc with rfl | rfl | rfl | rfl | rfl | rfl | rfl | rfl
    · exact wire_in_range _ (toFloat_isFloat _) hdiff
    · exact wire_in_range _ (toFloat_isFloat _) hdiff
    · exact wire_in_range _ (toFloat_isFloat _) hsum
    · exact wire_in_range _ (toFloat_isFloat _) hsum
    · exact wire_in_range _ (toFloat_isFloat _) (hpow _)
    · exact wire_in_range _ (toFloat_isFloat _) (hpow _)
    · exact wire_in_range _ (toFloat_isFloat _) (hpow _)
    · exact wire_in_range _ (toFloat_isFloat _) (hpow _)
  · intro c hc
    simp only [timer_callback_commands, List.drop_succ_cons, List.drop_zero, List.mem_cons,
      List.mem_singleton, List.not_mem_nil, or_false, DIGGER_ROTATION_POWER, DRUM_BELT_POWER,
      CONVEYOR_BELT_POWER] at hc
    rcases hc with rfl | rfl | rfl | rfl <;> exact wire_of_power _

/-- Witness of `timer_callback_no_overflow` at the corner linear 1, angular -1, for the
command sent to `FRONT_LEFT_DRIVE`. -/
theorem timer_callback_no_overflow_witness :
    (-1 : ℚ) ≤ 1 ∧ (1 : ℚ) ≤ 1 ∧ (-1 : ℚ) ≤ -1 ∧ (-1 : ℚ) ≤ 1 ∧
    -2 ≤ toFloat (1 - -1) ∧ toFloat (1 - -1) ≤ 2 ∧
    -200000 ≤ truncate (toDouble (toFloat (1 - -1) * 100000)) ∧
    truncate (toDouble (toFloat (1 - -1) * 100000)) ≤ 200000 :=
  have h := (timer_callback_no_overflow
    { State.init with linear_drive_power_cmd := 1, angular_drive_power_cmd := -1 }
    (by norm_num) (by norm_num) (by norm_num) (by norm_num)).2.1
    (FRONT_LEFT_DRIVE, toFloat (1 - -1)) (List.Mem.head _)
  ⟨by norm_num, by norm_num, by norm_num, by norm_num, h.1, h.2.1, h.2.2.1, h.2.2.2.1⟩

end MotorControl
